import Mathlib

/-!
Verification of the conformal prediction-set construction demonstrated by
`doc/examples_classification/plot_sadinle2019_example.py` (MAPIE).

The example script exercises `mapie.classification.MapieClassifier`, whose
implementation is not part of the source fragment; the `ConformalSetBuilder`
component below is therefore modelled from the specification. The script's
own test-grid construction (`X_test`) is translated directly from the source.

Real-number data (probabilities, scores, alpha levels) is embedded as `ℚ`.
-/

namespace Conformal

/-- Modelled from the spec: the error kinds of the `ConformalSetBuilder`
(spec §7); the builder implementation (`mapie.classification.MapieClassifier`)
is not under the source fragment. -/
inductive ConformalError where
  | NotEnoughCalibrationData
  | NotFitted
  | InvalidAlpha
  | DimensionMismatch
deriving DecidableEq, Repr

/-- Modelled from the spec: the fitted state of the builder — the class count
`K` established at fit time and the sorted calibration score sequence. -/
structure FittedState where
  K : ℕ
  scores : List ℚ
deriving DecidableEq, Repr

/-- Modelled from the spec: builder state machine `Unfitted → Fitted`;
`none` is the `Unfitted` state. -/
abbrev ConformalSetBuilder := Option FittedState

/-- Modelled from the spec: nonconformity score of a probability vector and a
label, `1 − (probability assigned to the label)`. -/
def nonconformityScore (p : List ℚ) (y : ℕ) : ℚ :=
  1 - p.getD y 0

/-- Modelled from the spec: the calibration scores of `fit` — for each
calibration sample, `1 − (probability assigned to the true label)`. -/
def calibScores (probs : List (List ℚ)) (labels : List ℕ) : List ℚ :=
  (probs.zip labels).map (fun pl => nonconformityScore pl.1 pl.2)

/-- Modelled from the spec: the computation of `fit` — fails with
`NotEnoughCalibrationData` when N = 0, otherwise records `K` and the sorted
calibration score sequence. -/
def fitAux (probs : List (List ℚ)) (labels : List ℕ) :
    Except ConformalError FittedState :=
  if probs.isEmpty then
    .error .NotEnoughCalibrationData
  else
    .ok { K := (probs.headD []).length
          scores := List.insertionSort (· ≤ ·) (calibScores probs labels) }

/-- Modelled from the spec: `fit` as a state transition — on success the
builder transitions to `Fitted`, on error the state is unchanged. -/
def fit (b : ConformalSetBuilder) (probs : List (List ℚ)) (labels : List ℕ) :
    ConformalSetBuilder × Except ConformalError Unit :=
  match fitAux probs labels with
  | .error e => (b, .error e)
  | .ok st => (some st, .ok ())

/-- Modelled from the spec: the finite-sample quantile rank
`⌈(N+1)(1−alpha)⌉`, clamped to the available N scores (nearest available
rank, per the spec's finite-sample correction note). -/
def quantileRank (N : ℕ) (alpha : ℚ) : ℕ :=
  min (⌈((N : ℚ) + 1) * (1 - alpha)⌉.toNat) N

/-- Modelled from the spec: the per-alpha quantile threshold `q(alpha)`: the
`quantileRank`-th smallest of the (sorted) calibration scores. -/
def quantileThreshold (scores : List ℚ) (alpha : ℚ) : ℚ :=
  scores.getD (quantileRank scores.length alpha - 1) 0

/-- Modelled from the spec: an alpha level is valid iff it lies in (0,1). -/
def validAlpha (a : ℚ) : Bool :=
  decide (0 < a) && decide (a < 1)

/-- Modelled from the spec: candidate score of class `c` for a test
probability vector, `s_c = 1 − p_c`. -/
def candidateScore (p : List ℚ) (c : ℕ) : ℚ :=
  1 - p.getD c 0

/-- Modelled from the spec: the point prediction — index of the maximal
probability (first occurrence on ties, as `argmax`). -/
def argmaxIdx (p : List ℚ) : ℕ :=
  (List.range p.length).foldl
    (fun best i => if p.getD best 0 < p.getD i 0 then i else best) 0

/-- Modelled from the spec: the output of `predict_sets` — an
M × K × |alphas| boolean structure together with the per-sample point
predictions. -/
structure PredictResult where
  sets : List (List (List Bool))
  pointPreds : List ℕ
deriving DecidableEq, Repr

/-- Modelled from the spec: the successful output of `predict_sets` — the
full M × K × |alphas| inclusion structure (class `c` is included for alpha
iff `s_c ≤ q(alpha)`, the third axis following the order of the given
alphas) together with the per-sample argmax point predictions. -/
def buildSets (st : FittedState) (testProbs : List (List ℚ))
    (alphas : List ℚ) : PredictResult :=
  { sets := testProbs.map (fun p =>
      (List.range st.K).map (fun c =>
        alphas.map (fun alpha =>
          decide (candidateScore p c ≤ quantileThreshold st.scores alpha))))
    pointPreds := testProbs.map argmaxIdx }

/-- Modelled from the spec: the computation of `predict_sets` in the fitted
state — eager validation of the alpha levels and of the probability-vector
dimensions, then the full inclusion structure. -/
def predictSetsAux (st : FittedState) (testProbs : List (List ℚ))
    (alphas : List ℚ) : Except ConformalError PredictResult :=
  if ¬ (alphas.all validAlpha) then
    .error .InvalidAlpha
  else if ¬ (testProbs.all (fun p => p.length = st.K)) then
    .error .DimensionMismatch
  else
    .ok (buildSets st testProbs alphas)

/-- Modelled from the spec: `predict_sets` as a state transition — fails with
`NotFitted` in the `Unfitted` state and is read-only over the builder's
state. -/
def predict_sets (b : ConformalSetBuilder) (testProbs : List (List ℚ))
    (alphas : List ℚ) :
    ConformalSetBuilder × Except ConformalError PredictResult :=
  (b, match b with
      | none => .error .NotFitted
      | some st => predictSetsAux st testProbs alphas)

/-- Entry (sample `m`, class `c`, alpha index `a`) of the boolean inclusion
structure; `false` out of range. -/
def setsEntry (r : PredictResult) (m c a : ℕ) : Bool :=
  ((r.sets.getD m []).getD c []).getD a false

/-- Modelled from the spec: the whole pipeline run on explicit inputs — the
base classifier is an external capability mapping a feature vector to a
length-K probability vector; fit on the calibration data, then build the
prediction sets for the test points. -/
def pipeline (clfProbs : ℚ × ℚ → List ℚ) (calProbs : List (List ℚ))
    (calLabels : List ℕ) (testPoints : List (ℚ × ℚ)) (alphas : List ℚ) :
    Except ConformalError PredictResult :=
  (predict_sets (fit none calProbs calLabels).1 (testPoints.map clfProbs)
    alphas).2

end Conformal

namespace SadinleExample

/-- Grid constant of the example script: `x_min = -5`. -/
def x_min : ℚ := -5

/-- Grid constant of the example script: `x_max = 7`. -/
def x_max : ℚ := 7

/-- Grid constant of the example script: `y_min = -5`. -/
def y_min : ℚ := -5

/-- Grid constant of the example script: `y_max = 7`. -/
def y_max : ℚ := 7

/-- Grid constant of the example script: `step = 0.1`. -/
def step : ℚ := 1/10

/-- `np.arange start stop st` for positive rational step: the values
`start + i*st` for `i < ⌈(stop − start)/st⌉`. -/
def arange (start stop st : ℚ) : List ℚ :=
  (List.range (⌈(stop - start) / st⌉.toNat)).map
    (fun i : ℕ => start + (i : ℚ) * st)

/-- The test grid of the example script:
`[[x, y] for x in np.arange(x_min, x_max, step) for y in np.arange(x_min, x_max, step)]`
(the inner range also uses the x-axis bounds, as written in the source). -/
def X_test : List (ℚ × ℚ) :=
  (arange x_min x_max step).flatMap (fun x =>
    (arange x_min x_max step).map (fun y => (x, y)))

end SadinleExample

namespace Conformal

lemma fit_ok {b : ConformalSetBuilder} {probs : List (List ℚ)}
    {labels : List ℕ} {st : FittedState}
    (h : fit b probs labels = (some st, Except.ok ())) :
    probs ≠ [] ∧
      st = { K := (probs.headD []).length
             scores := List.insertionSort (· ≤ ·) (calibScores probs labels) } := by
  by_cases hp : probs.isEmpty
  · simp [fit, fitAux, hp] at h
  · refine ⟨by simpa [List.isEmpty_iff] using hp, ?_⟩
    simp [fit, fitAux, hp] at h
    simpa using h.symm

lemma scores_sorted {b : ConformalSetBuilder} {probs : List (List ℚ)}
    {labels : List ℕ} {st : FittedState}
    (h : fit b probs labels = (some st, Except.ok ())) :
    st.scores.Sorted (· ≤ ·) := by
  rcases fit_ok h with ⟨-, rfl⟩
  exact List.sorted_insertionSort _ _

lemma scores_length {b : ConformalSetBuilder} {probs : List (List ℚ)}
    {labels : List ℕ} {st : FittedState}
    (h : fit b probs labels = (some st, Except.ok ()))
    (hlen : labels.length = probs.length) :
    st.scores.length = probs.length := by
  rcases fit_ok h with ⟨-, rfl⟩
  simp [calibScores, (List.perm_insertionSort (· ≤ ·) _).length_eq, hlen]

lemma scores_ne_nil {b : ConformalSetBuilder} {probs : List (List ℚ)}
    {labels : List ℕ} {st : FittedState}
    (h : fit b probs labels = (some st, Except.ok ()))
    (hlen : labels.length = probs.length) :
    st.scores ≠ [] := by
  have hne := (fit_ok h).1
  have := scores_length h hlen
  intro hnil
  rw [hnil] at this
  exact hne (List.length_eq_zero.mp this.symm)

lemma getD_mono_of_sorted {l : List ℚ} (h : l.Sorted (· ≤ ·)) {i j : ℕ}
    (hij : i ≤ j) (hj : j < l.length) :
    l.getD i 0 ≤ l.getD j 0 := by
  rcases Nat.lt_or_ge i j with hlt | hge
  · have hi : i < l.length := lt_trans hlt hj
    have := List.pairwise_iff_get.mp h ⟨i, hi⟩ ⟨j, hj⟩ hlt
    rw [List.getD_eq_getElem?_getD, List.getD_eq_getElem?_getD,
      List.getElem?_eq_getElem hi, List.getElem?_eq_getElem hj]
    simpa using this
  · have : i = j := le_antisymm hij hge
    subst this; rfl

lemma quantileRank_le (N : ℕ) (alpha : ℚ) : quantileRank N alpha ≤ N :=
  min_le_right _ _

lemma one_le_quantileRank {N : ℕ} (hN : 1 ≤ N) {alpha : ℚ} (ha : alpha < 1) :
    1 ≤ quantileRank N alpha := by
  have hpos : (0:ℚ) < ((N : ℚ) + 1) * (1 - alpha) := by
    have h1 : (0:ℚ) < (N : ℚ) + 1 := by positivity
    have h2 : (0:ℚ) < 1 - alpha := by linarith
    exact mul_pos h1 h2
  have hceil : 0 < ⌈((N : ℚ) + 1) * (1 - alpha)⌉ := Int.ceil_pos.mpr hpos
  exact le_min (by omega) hN

lemma quantileRank_anti {N : ℕ} {a1 a2 : ℚ} (h : a1 ≤ a2) :
    quantileRank N a2 ≤ quantileRank N a1 := by
  have hle : ((N : ℚ) + 1) * (1 - a2) ≤ ((N : ℚ) + 1) * (1 - a1) :=
    mul_le_mul_of_nonneg_left (by linarith) (by positivity)
  exact min_le_min (Int.toNat_le_toNat (Int.ceil_le_ceil hle)) le_rfl

lemma quantileThreshold_anti {l : List ℚ} (hs : l.Sorted (· ≤ ·))
    (hne : l ≠ []) {a1 a2 : ℚ} (h12 : a1 ≤ a2) (h2 : a2 < 1) :
    quantileThreshold l a2 ≤ quantileThreshold l a1 := by
  have hN : 1 ≤ l.length := List.length_pos.mpr hne
  have hr2 : 1 ≤ quantileRank l.length a2 := one_le_quantileRank hN h2
  have hr1le : quantileRank l.length a1 ≤ l.length := quantileRank_le _ _
  have hanti : quantileRank l.length a2 ≤ quantileRank l.length a1 :=
    quantileRank_anti h12
  exact getD_mono_of_sorted hs (Nat.sub_le_sub_right hanti 1) (by omega)

end Conformal

namespace Conformal

lemma all_validAlpha_iff (alphas : List ℚ) :
    alphas.all validAlpha = true ↔ ∀ a ∈ alphas, 0 < a ∧ a < 1 := by
  simp [List.all_eq_true, validAlpha]

lemma predictSetsAux_ok {st : FittedState} {tp : List (List ℚ)}
    {alphas : List ℚ} {r : PredictResult}
    (h : predictSetsAux st tp alphas = Except.ok r) :
    (∀ a ∈ alphas, 0 < a ∧ a < 1) ∧ (∀ p ∈ tp, p.length = st.K) ∧
      r = buildSets st tp alphas := by
  by_cases h1 : alphas.all validAlpha
  · by_cases h2 : tp.all (fun p => p.length = st.K)
    · refine ⟨(all_validAlpha_iff alphas).mp h1, ?_, ?_⟩
      · simpa [List.all_eq_true] using h2
      · simp [predictSetsAux, h1, h2] at h
        exact h.symm
    · simp [predictSetsAux, h1, h2] at h
  · simp [predictSetsAux, h1] at h

lemma setsEntry_buildSets {st : FittedState} {tp : List (List ℚ)}
    {alphas : List ℚ} {m c a : ℕ}
    (hm : m < tp.length) (hc : c < st.K) (ha : a < alphas.length) :
    setsEntry (buildSets st tp alphas) m c a
      = decide (candidateScore (tp.getD m []) c
          ≤ quantileThreshold st.scores (alphas.getD a 0)) := by
  unfold setsEntry buildSets
  simp [List.getD_eq_getElem?_getD, List.getElem?_map, List.getElem?_range,
    List.getElem?_eq_getElem, hm, hc, ha]

lemma setsEntry_oob {st : FittedState} {tp : List (List ℚ)}
    {alphas : List ℚ} {m c a : ℕ} (h : tp.length ≤ m ∨ st.K ≤ c) :
    setsEntry (buildSets st tp alphas) m c a = false := by
  rcases h with hm | hc
  · have h1 : (buildSets st tp alphas).sets.getD m [] = [] := by
      apply List.getD_eq_default
      simpa [buildSets] using hm
    unfold setsEntry
    rw [h1]
    simp
  · by_cases hm : m < tp.length
    · have h1 : (buildSets st tp alphas).sets.getD m []
          = (List.range st.K).map (fun c => alphas.map (fun alpha =>
              decide (candidateScore (tp.getD m []) c
                ≤ quantileThreshold st.scores alpha))) := by
        simp [buildSets, List.getD_eq_getElem?_getD, List.getElem?_map,
          List.getElem?_eq_getElem hm]
      have h2 : ((buildSets st tp alphas).sets.getD m []).getD c [] = [] := by
        rw [h1]
        apply List.getD_eq_default
        simpa using hc
      unfold setsEntry
      rw [h2]
      simp
    · have h1 : (buildSets st tp alphas).sets.getD m [] = [] := by
        apply List.getD_eq_default
        simpa [buildSets] using Nat.le_of_not_lt hm
      unfold setsEntry
      rw [h1]
      simp

end Conformal

namespace Conformal

/-- C6: `predict_sets` on an unfitted builder always fails with `NotFitted`
and never returns a result. -/
theorem predict_sets_unfitted_notFitted (testProbs : List (List ℚ))
    (alphas : List ℚ) :
    (predict_sets (none : ConformalSetBuilder) testProbs alphas).2
      = Except.error ConformalError.NotFitted :=
  rfl

/-- C9: `predict_sets` is read-only over the builder's state — the state is
identical before and after any call, and after any sequence of calls, so the
fitted thresholds are reused unchanged until `fit` is called again. -/
theorem predict_sets_readonly (b : ConformalSetBuilder)
    (tp : List (List ℚ)) (alphas : List ℚ)
    (calls : List (List (List ℚ) × List ℚ)) :
    (predict_sets b tp alphas).1 = b ∧
    calls.foldl (fun s call => (predict_sets s call.1 call.2).1) b = b := by
  refine ⟨rfl, ?_⟩
  induction calls generalizing b with
  | nil => rfl
  | cons hd tl ih => exact ih b

/-- C5: the pipeline (fit on calibration data, then prediction-set
construction on test points) is deterministic — equal inputs give equal
outputs — and the base classifier's probability-estimation operation maps
each feature vector to the same probability vector on every invocation. -/
theorem pipeline_deterministic (clf1 clf2 : ℚ × ℚ → List ℚ)
    (cp1 cp2 : List (List ℚ)) (cl1 cl2 : List ℕ)
    (tp1 tp2 : List (ℚ × ℚ)) (al1 al2 : List ℚ)
    (hclf : clf1 = clf2) (hcp : cp1 = cp2) (hcl : cl1 = cl2)
    (htp : tp1 = tp2) (hal : al1 = al2) :
    pipeline clf1 cp1 cl1 tp1 al1 = pipeline clf2 cp2 cl2 tp2 al2
    ∧ ∀ x, clf1 x = clf2 x := by
  subst hclf hcp hcl htp hal
  exact ⟨rfl, fun _ => rfl⟩

/-- Witness for C5 at a concrete classifier and concrete data. -/
theorem pipeline_deterministic_witness :
    pipeline (fun _ => [1, 0]) [[1, 0]] [0] [(0, 0)] [1/2]
      = pipeline (fun _ => [1, 0]) [[1, 0]] [0] [(0, 0)] [1/2]
    ∧ ∀ x : ℚ × ℚ, (fun _ : ℚ × ℚ => [(1 : ℚ), 0]) x = (fun _ => [1, 0]) x :=
  pipeline_deterministic _ _ _ _ _ _ _ _ _ _ rfl rfl rfl rfl rfl

/-- C7: `fit` with an empty calibration set fails with
`NotEnoughCalibrationData`; with N ≥ 1 samples and valid labels it succeeds,
leaving the builder `Fitted`. -/
theorem fit_calibration_requirements (b : ConformalSetBuilder)
    (probs : List (List ℚ)) (labels : List ℕ)
    (hne : probs ≠ []) (hlen : labels.length = probs.length)
    (hvalid : ∀ y ∈ labels, y < (probs.headD []).length) :
    fit b [] [] = (b, Except.error ConformalError.NotEnoughCalibrationData)
    ∧ ∃ st : FittedState, fit b probs labels = (some st, Except.ok ()) := by
  have hp : probs.isEmpty = false := by simpa [List.isEmpty_iff] using hne
  refine ⟨rfl, ⟨{ K := (probs.headD []).length
                  scores := List.insertionSort (· ≤ ·) (calibScores probs labels) }, ?_⟩⟩
  simp [fit, fitAux, hp]

/-- Witness for C7 at a concrete one-sample calibration set. -/
theorem fit_calibration_requirements_witness :
    fit none [] [] = (none, Except.error ConformalError.NotEnoughCalibrationData)
    ∧ ∃ st : FittedState, fit none [[1, 0]] [0] = (some st, Except.ok ()) :=
  fit_calibration_requirements none [[1, 0]] [0] (by simp) (by simp)
    (by simp)

end Conformal

namespace Conformal

lemma getD_mem {l : List ℚ} {i : ℕ} (h : i < l.length) :
    l.getD i 0 ∈ l := by
  rw [List.getD_eq_getElem?_getD, List.getElem?_eq_getElem h]
  exact List.getElem_mem h

/-- C1: for a fitted builder, alpha1 < alpha2 (both in (0,1), as forced by a
successful `predict_sets` call) gives a threshold for alpha1 at least the
threshold for alpha2, and the prediction set for alpha1 contains the
prediction set for alpha2 for the same sample. -/
theorem prediction_sets_monotone
    (b : ConformalSetBuilder) (calProbs : List (List ℚ)) (calLabels : List ℕ)
    (st : FittedState)
    (hfit : fit b calProbs calLabels = (some st, Except.ok ()))
    (hlen : calLabels.length = calProbs.length)
    (tp : List (List ℚ)) (alphas : List ℚ) (r : PredictResult)
    (hrun : (predict_sets (some st) tp alphas).2 = Except.ok r)
    (a1 a2 : ℕ) (ha1 : a1 < alphas.length) (ha2 : a2 < alphas.length)
    (h12 : alphas.getD a1 0 < alphas.getD a2 0)
    (m c : ℕ) :
    quantileThreshold st.scores (alphas.getD a2 0)
      ≤ quantileThreshold st.scores (alphas.getD a1 0)
    ∧ (setsEntry r m c a2 = true → setsEntry r m c a1 = true) := by
  have hsort := scores_sorted hfit
  have hne := scores_ne_nil hfit hlen
  have hok : predictSetsAux st tp alphas = Except.ok r := hrun
  obtain ⟨hal, hdim, rfl⟩ := predictSetsAux_ok hok
  have hv2 := hal _ (getD_mem ha2)
  have hq : quantileThreshold st.scores (alphas.getD a2 0)
      ≤ quantileThreshold st.scores (alphas.getD a1 0) :=
    quantileThreshold_anti hsort hne (le_of_lt h12) hv2.2
  refine ⟨hq, ?_⟩
  by_cases hm : m < tp.length
  · by_cases hc : c < st.K
    · rw [setsEntry_buildSets hm hc ha1, setsEntry_buildSets hm hc ha2]
      simp only [decide_eq_true_eq]
      intro h
      exact le_trans h hq
    · rw [setsEntry_oob (Or.inr (le_of_not_lt hc))]
      simp
  · rw [setsEntry_oob (Or.inl (le_of_not_lt hm))]
    simp

/-- C3: for a builder fitted from calibration probabilities and true labels,
the stored scores are the sorted `1 − p(true label)` nonconformity scores,
and a class `c` is a member of the prediction set of a test sample for a
given alpha iff `1 − p_c ≤ q(alpha)`. -/
theorem prediction_set_membership_iff
    (b : ConformalSetBuilder) (calProbs : List (List ℚ)) (calLabels : List ℕ)
    (st : FittedState)
    (hfit : fit b calProbs calLabels = (some st, Except.ok ()))
    (tp : List (List ℚ)) (alphas : List ℚ) (r : PredictResult)
    (hrun : (predict_sets (some st) tp alphas).2 = Except.ok r)
    (m c a : ℕ) (hm : m < tp.length) (hc : c < st.K)
    (ha : a < alphas.length) :
    st.scores = List.insertionSort (· ≤ ·) (calibScores calProbs calLabels)
    ∧ (setsEntry r m c a = true ↔
        1 - (tp.getD m []).getD c 0
          ≤ quantileThreshold st.scores (alphas.getD a 0)) := by
  have hok : predictSetsAux st tp alphas = Except.ok r := hrun
  obtain ⟨hal, hdim, rfl⟩ := predictSetsAux_ok hok
  obtain ⟨-, rfl⟩ := fit_ok hfit
  rw [setsEntry_buildSets hm hc ha]
  simp [candidateScore]

/-- C4: a successful `predict_sets` call over M test probability vectors
returns an M × K × |alphas| boolean structure whose (sample, class,
alpha-index) entry decides inclusion for the alpha at that index, together
with per-sample argmax point predictions that do not depend on the alphas. -/
theorem predict_sets_output_shape
    (st : FittedState) (tp : List (List ℚ)) (alphas alphas2 : List ℚ)
    (r r2 : PredictResult)
    (hrun : (predict_sets (some st) tp alphas).2 = Except.ok r)
    (hrun2 : (predict_sets (some st) tp alphas2).2 = Except.ok r2) :
    r.sets.length = tp.length
    ∧ (∀ row ∈ r.sets, row.length = st.K
        ∧ ∀ col ∈ row, col.length = alphas.length)
    ∧ (∀ m c a, m < tp.length → c < st.K → a < alphas.length →
        (setsEntry r m c a = true ↔
          candidateScore (tp.getD m []) c
            ≤ quantileThreshold st.scores (alphas.getD a 0)))
    ∧ r.pointPreds = tp.map argmaxIdx
    ∧ r2.pointPreds = r.pointPreds := by
  have hok : predictSetsAux st tp alphas = Except.ok r := hrun
  have hok2 : predictSetsAux st tp alphas2 = Except.ok r2 := hrun2
  obtain ⟨-, -, rfl⟩ := predictSetsAux_ok hok
  obtain ⟨-, -, rfl⟩ := predictSetsAux_ok hok2
  refine ⟨by simp [buildSets], ?_, ?_, rfl, rfl⟩
  · intro row hrow
    simp only [buildSets, List.mem_map] at hrow
    obtain ⟨p, -, rfl⟩ := hrow
    constructor
    · simp
    · intro col hcol
      simp only [List.mem_map] at hcol
      obtain ⟨cc, -, rfl⟩ := hcol
      simp
  · intro m c a hm hc ha
    rw [setsEntry_buildSets hm hc ha]
    simp

end Conformal

namespace Conformal

/-- C2: for a fitted builder with N ≥ the computed rank, the threshold used
by `predict_sets` is the `⌈(N+1)(1−alpha)⌉`-th smallest of the sorted
calibration scores; in particular for N = 4 scores `[0.1, 0.2, 0.3, 0.9]`
and alpha = 0.25 the rank is `⌈5 × 0.75⌉ = 4` and the threshold is 0.9. -/
theorem quantileThreshold_formula
    (b : ConformalSetBuilder) (calProbs : List (List ℚ)) (calLabels : List ℕ)
    (st : FittedState)
    (hfit : fit b calProbs calLabels = (some st, Except.ok ()))
    (alpha : ℚ) (ha0 : 0 < alpha) (ha1 : alpha < 1)
    (hrank : (⌈((st.scores.length : ℚ) + 1) * (1 - alpha)⌉).toNat
        ≤ st.scores.length) :
    quantileThreshold st.scores alpha
      = st.scores.getD
          ((⌈((st.scores.length : ℚ) + 1) * (1 - alpha)⌉).toNat - 1) 0
    ∧ st.scores = List.insertionSort (· ≤ ·) (calibScores calProbs calLabels)
    ∧ quantileRank 4 (1/4) = 4
    ∧ quantileThreshold [1/10, 2/10, 3/10, 9/10] (1/4) = 9/10 := by
  have hrank4 : quantileRank 4 (1/4) = 4 := by
    unfold quantileRank
    have h : ⌈(((4 : ℕ) : ℚ) + 1) * (1 - 1/4)⌉ = 4 := by
      rw [Int.ceil_eq_iff]
      norm_num
    rw [h]
    rfl
  refine ⟨?_, ?_, hrank4, ?_⟩
  · unfold quantileThreshold quantileRank
    rw [min_eq_left hrank]
  · obtain ⟨-, rfl⟩ := fit_ok hfit
    rfl
  · unfold quantileThreshold
    have hl : [(1:ℚ)/10, 2/10, 3/10, 9/10].length = 4 := rfl
    rw [hl, hrank4]
    rfl

end Conformal

namespace Conformal

/-- C8: all four error kinds are detected at the start of the offending
operation and produce no output; on error the builder's state is unchanged,
and every successful `predict_sets` output is complete
(M × K × |alphas|). -/
theorem errors_detected_eagerly (st : FittedState) :
    (∀ (b : ConformalSetBuilder) tp alphas, (predict_sets b tp alphas).1 = b)
    ∧ (∀ tp alphas, (predict_sets none tp alphas).2
        = Except.error ConformalError.NotFitted)
    ∧ (∀ tp alphas, (∃ a ∈ alphas, ¬ (0 < a ∧ a < 1)) →
        (predict_sets (some st) tp alphas).2
          = Except.error ConformalError.InvalidAlpha)
    ∧ (∀ tp alphas, (∀ a ∈ alphas, 0 < a ∧ a < 1) →
        (∃ p ∈ tp, p.length ≠ st.K) →
        (predict_sets (some st) tp alphas).2
          = Except.error ConformalError.DimensionMismatch)
    ∧ (∀ (b : ConformalSetBuilder) probs labels e,
        (fit b probs labels).2 = Except.error e → (fit b probs labels).1 = b)
    ∧ (∀ tp alphas r, (predict_sets (some st) tp alphas).2 = Except.ok r →
        r.sets.length = tp.length ∧ r.pointPreds.length = tp.length
        ∧ ∀ row ∈ r.sets, row.length = st.K
            ∧ ∀ col ∈ row, col.length = alphas.length) := by
  refine ⟨fun _ _ _ => rfl, fun _ _ => rfl, ?_, ?_, ?_, ?_⟩
  · rintro tp alphas ⟨a, ha, hbad⟩
    have hfail : ¬ (alphas.all validAlpha = true) := fun hall =>
      hbad ((all_validAlpha_iff alphas).mp hall a ha)
    show predictSetsAux st tp alphas = _
    simp [predictSetsAux, hfail]
  · rintro tp alphas hval ⟨p, hp, hbad⟩
    have h1 : alphas.all validAlpha = true := (all_validAlpha_iff alphas).mpr hval
    have h2 : ¬ (tp.all (fun p => p.length = st.K) = true) := by
      intro hall
      rw [List.all_eq_true] at hall
      exact hbad (by simpa using hall p hp)
    show predictSetsAux st tp alphas = _
    simp [predictSetsAux, h1, h2]
  · intro b probs labels e h
    rcases hfa : fitAux probs labels with e' | st'
    · simp [fit, hfa]
    · simp [fit, hfa] at h
  · intro tp alphas r h
    have hok : predictSetsAux st tp alphas = Except.ok r := h
    obtain ⟨-, -, rfl⟩ := predictSetsAux_ok hok
    refine ⟨by simp [buildSets], by simp [buildSets], ?_⟩
    intro row hrow
    simp only [buildSets, List.mem_map] at hrow
    obtain ⟨p, -, rfl⟩ := hrow
    refine ⟨by simp, ?_⟩
    intro col hcol
    simp only [List.mem_map] at hcol
    obtain ⟨cc, -, rfl⟩ := hcol
    simp

/-- Witness for C8: each error kind triggered at a concrete input, a
state-preserving failing `fit`, and a complete concrete success. -/
theorem errors_detected_eagerly_witness :
    (predict_sets (some ⟨2, [1/10]⟩) [[1/2, 1/2]] [2]).2
      = Except.error ConformalError.InvalidAlpha
    ∧ (predict_sets (some ⟨2, [1/10]⟩) [[1/2]] [1/2]).2
      = Except.error ConformalError.DimensionMismatch
    ∧ (fit (none : ConformalSetBuilder) [] []).1 = none
    ∧ ((buildSets ⟨2, [1/10]⟩ [[1, 0]] [1/2]).sets.length = 1
        ∧ (buildSets ⟨2, [1/10]⟩ [[1, 0]] [1/2]).pointPreds.length = 1
        ∧ ∀ row ∈ (buildSets ⟨2, [1/10]⟩ [[1, 0]] [1/2]).sets,
            row.length = 2 ∧ ∀ col ∈ row, col.length = 1) := by
  have hth := errors_detected_eagerly ⟨2, [1/10]⟩
  refine ⟨hth.2.2.1 [[1/2, 1/2]] [2] ⟨2, by simp, by norm_num⟩,
          hth.2.2.2.1 [[1/2]] [1/2] ?_ ⟨[1/2], by simp, by norm_num⟩,
          hth.2.2.2.2.1 none [] [] ConformalError.NotEnoughCalibrationData rfl,
          ?_⟩
  · intro a ha
    rw [List.mem_singleton] at ha
    subst ha
    norm_num
  · have hrun : (predict_sets (some (⟨2, [1/10]⟩ : FittedState))
        [[1, 0]] [1/2]).2
        = Except.ok (buildSets ⟨2, [1/10]⟩ [[1, 0]] [1/2]) := by
      norm_num [predict_sets, predictSetsAux, validAlpha]
    have hc := hth.2.2.2.2.2 [[1, 0]] [1/2]
      (buildSets ⟨2, [1/10]⟩ [[1, 0]] [1/2]) hrun
    simpa using hc

end Conformal

namespace Conformal

/-- Witness for C1 at the concrete 4-sample calibration set, test vector
`[1, 0]`, and alphas 0.1 < 0.25. -/
theorem prediction_sets_monotone_witness :
    quantileThreshold (⟨2, [1/10, 1/5, 3/10, 9/10]⟩ : FittedState).scores
        ([(1:ℚ)/10, 1/4].getD 1 0)
      ≤ quantileThreshold (⟨2, [1/10, 1/5, 3/10, 9/10]⟩ : FittedState).scores
        ([(1:ℚ)/10, 1/4].getD 0 0)
    ∧ (setsEntry (buildSets ⟨2, [1/10, 1/5, 3/10, 9/10]⟩ [[1, 0]]
          [1/10, 1/4]) 0 0 1 = true
        → setsEntry (buildSets ⟨2, [1/10, 1/5, 3/10, 9/10]⟩ [[1, 0]]
            [1/10, 1/4]) 0 0 0 = true) :=
  prediction_sets_monotone none
    [[9/10, 1/10], [8/10, 2/10], [7/10, 3/10], [1/10, 9/10]] [0, 0, 0, 0]
    ⟨2, [1/10, 1/5, 3/10, 9/10]⟩
    (by norm_num [fit, fitAux, calibScores, nonconformityScore,
      List.insertionSort, List.orderedInsert])
    rfl
    [[1, 0]] [1/10, 1/4] _
    (by norm_num [predict_sets, predictSetsAux, validAlpha])
    0 1 (by norm_num) (by norm_num) (by norm_num) 0 0

/-- Witness for C2 at the concrete 4-sample calibration set and
alpha = 0.25. -/
theorem quantileThreshold_formula_witness :
    quantileThreshold (⟨2, [1/10, 1/5, 3/10, 9/10]⟩ : FittedState).scores (1/4)
      = (⟨2, [1/10, 1/5, 3/10, 9/10]⟩ : FittedState).scores.getD
          ((⌈(((⟨2, [1/10, 1/5, 3/10, 9/10]⟩ : FittedState).scores.length : ℚ)
              + 1) * (1 - 1/4)⌉).toNat - 1) 0
    ∧ (⟨2, [1/10, 1/5, 3/10, 9/10]⟩ : FittedState).scores
        = List.insertionSort (· ≤ ·) (calibScores
            [[9/10, 1/10], [8/10, 2/10], [7/10, 3/10], [1/10, 9/10]]
            [0, 0, 0, 0])
    ∧ quantileRank 4 (1/4) = 4
    ∧ quantileThreshold [1/10, 2/10, 3/10, 9/10] (1/4) = 9/10 :=
  quantileThreshold_formula none
    [[9/10, 1/10], [8/10, 2/10], [7/10, 3/10], [1/10, 9/10]] [0, 0, 0, 0]
    ⟨2, [1/10, 1/5, 3/10, 9/10]⟩
    (by norm_num [fit, fitAux, calibScores, nonconformityScore,
      List.insertionSort, List.orderedInsert])
    (1/4) (by norm_num) (by norm_num)
    (by show (⌈(((4:ℕ) : ℚ) + 1) * (1 - 1/4)⌉).toNat ≤ 4
        have h : ⌈(((4:ℕ) : ℚ) + 1) * (1 - 1/4)⌉ = 4 := by
          rw [Int.ceil_eq_iff]
          norm_num
        rw [h]
        rfl)

/-- Witness for C3 at the concrete 4-sample calibration set, test vector
`[1, 0]`, and alpha = 0.25. -/
theorem prediction_set_membership_iff_witness :
    (⟨2, [1/10, 1/5, 3/10, 9/10]⟩ : FittedState).scores
        = List.insertionSort (· ≤ ·) (calibScores
            [[9/10, 1/10], [8/10, 2/10], [7/10, 3/10], [1/10, 9/10]]
            [0, 0, 0, 0])
    ∧ (setsEntry (buildSets ⟨2, [1/10, 1/5, 3/10, 9/10]⟩ [[1, 0]] [1/4])
          0 0 0 = true ↔
        1 - ([[(1:ℚ), 0]].getD 0 []).getD 0 0
          ≤ quantileThreshold
              (⟨2, [1/10, 1/5, 3/10, 9/10]⟩ : FittedState).scores
              ([(1:ℚ)/4].getD 0 0)) :=
  prediction_set_membership_iff none
    [[9/10, 1/10], [8/10, 2/10], [7/10, 3/10], [1/10, 9/10]] [0, 0, 0, 0]
    ⟨2, [1/10, 1/5, 3/10, 9/10]⟩
    (by norm_num [fit, fitAux, calibScores, nonconformityScore,
      List.insertionSort, List.orderedInsert])
    [[1, 0]] [1/4] _
    (by norm_num [predict_sets, predictSetsAux, validAlpha])
    0 0 0 (by norm_num) (by norm_num) (by norm_num)

/-- Witness for C4 at a concrete fitted state, one test vector, and two
different alpha sequences. -/
theorem predict_sets_output_shape_witness :
    (buildSets ⟨2, [1/10, 1/5, 3/10, 9/10]⟩ [[1, 0]] [1/4]).sets.length = 1
    ∧ (∀ row ∈ (buildSets ⟨2, [1/10, 1/5, 3/10, 9/10]⟩ [[1, 0]]
          [1/4]).sets, row.length = (⟨2, [1/10, 1/5, 3/10, 9/10]⟩
            : FittedState).K
        ∧ ∀ col ∈ row, col.length = [(1:ℚ)/4].length)
    ∧ (∀ m c a, m < [[(1:ℚ), 0]].length
        → c < (⟨2, [1/10, 1/5, 3/10, 9/10]⟩ : FittedState).K
        → a < [(1:ℚ)/4].length →
        (setsEntry (buildSets ⟨2, [1/10, 1/5, 3/10, 9/10]⟩ [[1, 0]] [1/4])
            m c a = true ↔
          candidateScore ([[(1:ℚ), 0]].getD m []) c
            ≤ quantileThreshold
                (⟨2, [1/10, 1/5, 3/10, 9/10]⟩ : FittedState).scores
                ([(1:ℚ)/4].getD a 0)))
    ∧ (buildSets ⟨2, [1/10, 1/5, 3/10, 9/10]⟩ [[1, 0]] [1/4]).pointPreds
        = [[(1:ℚ), 0]].map argmaxIdx
    ∧ (buildSets ⟨2, [1/10, 1/5, 3/10, 9/10]⟩ [[1, 0]] [1/10]).pointPreds
        = (buildSets ⟨2, [1/10, 1/5, 3/10, 9/10]⟩ [[1, 0]]
            [1/4]).pointPreds := by
  have := predict_sets_output_shape ⟨2, [1/10, 1/5, 3/10, 9/10]⟩
    [[1, 0]] [1/4] [1/10]
    (buildSets ⟨2, [1/10, 1/5, 3/10, 9/10]⟩ [[1, 0]] [1/4])
    (buildSets ⟨2, [1/10, 1/5, 3/10, 9/10]⟩ [[1, 0]] [1/10])
    (by norm_num [predict_sets, predictSetsAux, validAlpha])
    (by norm_num [predict_sets, predictSetsAux, validAlpha])
  simpa using this

end Conformal

namespace SadinleExample

lemma ceil_grid : ⌈(x_max - x_min) / step⌉ = 120 := by
  rw [Int.ceil_eq_iff]
  norm_num [x_min, x_max, step]

lemma toNat_ceil_grid : (⌈(x_max - x_min) / step⌉).toNat = 120 := by
  rw [ceil_grid]
  rfl

lemma arange_grid_length : (arange x_min x_max step).length = 120 := by
  rw [arange, List.length_map, List.length_range, toNat_ceil_grid]

lemma mem_arange_grid_bounds {q : ℚ} (hq : q ∈ arange x_min x_max step) :
    (-5 : ℚ) ≤ q ∧ q < 7 := by
  rw [arange, List.mem_map] at hq
  obtain ⟨i, hi, rfl⟩ := hq
  rw [List.mem_range, toNat_ceil_grid] at hi
  constructor
  · have h0 : (0 : ℚ) ≤ (i : ℚ) * step := by
      apply mul_nonneg (Nat.cast_nonneg i)
      norm_num [step]
    simp only [x_min]
    linarith
  · have hi' : (i : ℚ) ≤ 119 := by
      exact_mod_cast Nat.lt_succ_iff.mp hi
    have hstep : (i : ℚ) * step ≤ 119 * step :=
      mul_le_mul_of_nonneg_right hi' (by norm_num [step])
    have h119 : (119 : ℚ) * step = 119/10 := by norm_num [step]
    simp only [x_min]
    rw [h119] at hstep
    linarith

/-- C10: the test grid uses the x-axis bounds for both coordinates: it is
exactly the pairs (x, y) with x and y each ranging over
`np.arange(-5, 7, 0.1)` in lexicographic order (x outer, y inner), giving
120 × 120 = 14400 points, each coordinate in [-5, 7). -/
theorem X_test_grid :
    X_test = (arange x_min x_max step).flatMap (fun x =>
        (arange x_min x_max step).map (fun y => (x, y)))
    ∧ arange x_min x_max step = arange (-5) 7 (1/10)
    ∧ (arange x_min x_max step).length = 120
    ∧ X_test.length = 14400
    ∧ ∀ p ∈ X_test, (-5 : ℚ) ≤ p.1 ∧ p.1 < 7 ∧ (-5 : ℚ) ≤ p.2 ∧ p.2 < 7 := by
  refine ⟨rfl, rfl, arange_grid_length, ?_, ?_⟩
  · rw [X_test, List.length_flatMap]
    have hf : (List.length ∘ fun x : ℚ =>
        (arange x_min x_max step).map (fun y => (x, y)))
        = fun _ : ℚ => 120 := by
      funext x
      simp only [Function.comp_apply, List.length_map]
      exact arange_grid_length
    rw [hf, List.map_const', arange_grid_length, List.sum_replicate,
      smul_eq_mul]
  · intro p hp
    rw [X_test, List.mem_flatMap] at hp
    obtain ⟨x, hx, hp2⟩ := hp
    rw [List.mem_map] at hp2
    obtain ⟨y, hy, rfl⟩ := hp2
    obtain ⟨hx1, hx2⟩ := mem_arange_grid_bounds hx
    obtain ⟨hy1, hy2⟩ := mem_arange_grid_bounds hy
    exact ⟨hx1, hx2, hy1, hy2⟩

/-- Witness for C10 at the concrete grid point (-5, -5). -/
theorem X_test_grid_witness :
    (-5 : ℚ) ≤ -5 ∧ (-5 : ℚ) < 7 ∧ (-5 : ℚ) ≤ -5 ∧ (-5 : ℚ) < 7 := by
  have h5 : (-5 : ℚ) ∈ arange x_min x_max step := by
    rw [arange, List.mem_map]
    refine ⟨0, ?_, ?_⟩
    · rw [List.mem_range, toNat_ceil_grid]
      norm_num
    · norm_num [x_min, step]
  have hmem : ((-5 : ℚ), (-5 : ℚ)) ∈ X_test := by
    rw [X_test, List.mem_flatMap]
    exact ⟨-5, h5, List.mem_map.mpr ⟨-5, h5, rfl⟩⟩
  exact X_test_grid.2.2.2.2 (-5, -5) hmem

end SadinleExample
